import Mathlib

/-
Verification of the compliance-checklist auditor in
src/compliance_toolkit/utils.py: the checklist loader, the repository
keyword scanner, the auditor, and the markdown report generator.

Modelling choices, from the source:
- Record values are Python-like: a key in a record is either absent or bound
  to a value which may be None, a string, or a boolean.  Subscript access
  raises KeyError on an absent key; the method get with a default never does.
- The filesystem walk under a root is a list of file entries in walk order;
  each entry carries the base name of the file and either its decoded text
  content or a marker that reading the file failed.  A nonexistent or empty
  root yields the empty list.
- The checklist directory is either absent (the path is not a directory) or a
  listing of files; each file carries a name and either its parsed item list
  or a marker that opening or parsing failed.
-/

namespace ComplianceToolkit

/-- A Python-like scalar value held in a checklist or result record: the
value None, a string value, or a boolean value. -/
inductive PyVal where
  | vNone : PyVal
  | vStr : String → PyVal
  | vBool : Bool → PyVal
deriving DecidableEq, Repr

/-- How a value renders inside a Python f-string: None renders as the text
None, a string as itself, a boolean as True or False. -/
def pyStr : PyVal → String
  | .vNone => "None"
  | .vStr s => s
  | .vBool b => if b then "True" else "False"

/-- Python truthiness: None is falsy, a string is truthy exactly when it is
nonempty, a boolean is its own truth value. -/
def truthy : PyVal → Bool
  | .vNone => false
  | .vStr s => !(s == "")
  | .vBool b => b

/-- Subscript access to a record key, as in Python r[key]: returns the bound
value, or raises KeyError when the key is absent. -/
def getItem (o : Option PyVal) : Except Unit PyVal :=
  match o with
  | some v => Except.ok v
  | none => Except.error ()

/-- One regular file met by the walk under the scanned root: its base name
and the outcome of opening and reading it as text, where none records a
per-file read error.  A nonexistent or empty root is the empty list of
entries. -/
structure FileEntry where
  name : String
  content : Option String
deriving DecidableEq, Repr

/-- Lower-casing of a string, one character at a time, modelling the Python
lower method used by the scanner. -/
def toLowerStr (s : String) : String :=
  String.mk (s.data.map Char.toLower)

/-- Boolean test that the first character list is an initial segment of the
second. -/
def isPrefixOfChars : List Char → List Char → Bool
  | [], _ => true
  | _ :: _, [] => false
  | a :: as, b :: bs => a == b && isPrefixOfChars as bs

/-- Boolean test that the first character list is a final segment of the
second. -/
def isSuffixOfChars (k l : List Char) : Bool :=
  isPrefixOfChars k.reverse l.reverse

/-- Python endswith over strings. -/
def strEndsWith (s suff : String) : Bool :=
  isSuffixOfChars suff.data s.data

/-- The excluded binary extensions tested by fn.endswith in the scanner. -/
def excludedExt (fn : String) : Bool :=
  strEndsWith fn ".png" || strEndsWith fn ".jpg" || strEndsWith fn ".jpeg" ||
  strEndsWith fn ".gif" || strEndsWith fn ".class"

/-- Boolean test that the character list k occurs contiguously inside the
second list, matching Python substring containment. -/
def containsChars (k : List Char) : List Char → Bool
  | [] => k.isEmpty
  | c :: rest => isPrefixOfChars k (c :: rest) || containsChars k rest

/-- Python substring containment, k in data, over strings. -/
def strContains (data k : String) : Bool :=
  containsChars k.data data.data

/-- The per-file body of the scanner loop: a file whose name ends in an
excluded binary extension is skipped, a file whose read fails is skipped,
and otherwise the lower-cased content is tested against each already
lower-cased keyword. -/
def fileHits (low_kw : List String) (f : FileEntry) : Bool :=
  if excludedExt f.name then false
  else
    match f.content with
    | none => false
    | some data => low_kw.any (fun k => strContains (toLowerStr data) k)

/-- scan_repo_for_keywords from src/compliance_toolkit/utils.py: lower-case
every keyword, then walk the files and return True on the first file whose
content contains one of them, False when the walk completes without a hit. -/
def scan_repo_for_keywords (files : List FileEntry) (keywords : List String) : Bool :=
  files.any (fileHits (keywords.map toLowerStr))

/-- A checklist item record as parsed from a checklist JSON file: every key
may be absent.  The keywords key, when present, is bound to a list of
strings. -/
structure ChecklistItem where
  id : Option PyVal := none
  title : Option PyVal := none
  description : Option PyVal := none
  keywords : Option (List String) := none
  remediation : Option PyVal := none
deriving DecidableEq, Repr

/-- An audit result record.  Each key may be absent, since the report
generator accepts arbitrary records; the auditor itself always emits records
with all five keys bound (possibly to None). -/
structure ResultDict where
  id : Option PyVal := none
  title : Option PyVal := none
  description : Option PyVal := none
  present : Option PyVal := none
  remediation : Option PyVal := none
deriving DecidableEq, Repr

/-- audit_repo from src/compliance_toolkit/utils.py: one result per item, in
order, copying id, title, description and remediation through item.get (so
an absent key becomes None), and setting present to the scanner verdict on
the item keyword list, where a missing keywords key is treated as the empty
list. -/
def audit_repo (files : List FileEntry) (checklists : List ChecklistItem) :
    List ResultDict :=
  checklists.map (fun item =>
    { id := some (item.id.getD .vNone),
      title := some (item.title.getD .vNone),
      description := some (item.description.getD .vNone),
      present := some (.vBool (scan_repo_for_keywords files (item.keywords.getD []))),
      remediation := some (item.remediation.getD .vNone) })

/-- One file of the checklist directory: its base name and the parsed item
sequence, where none records that opening or JSON-parsing the file raised. -/
structure ChecklistFile where
  name : String
  items : Option (List ChecklistItem)
deriving Repr

/-- load_checklists from src/compliance_toolkit/utils.py over the directory
listing: none models a path that is not a directory, yielding the empty
sequence; otherwise each file whose name ends in .json and whose parse
succeeded appends its items in file order, and every other file is skipped
silently. -/
def load_checklists : Option (List ChecklistFile) → List ChecklistItem
  | none => []
  | some files =>
    files.foldl (fun acc f =>
      if strEndsWith f.name ".json" then
        match f.items with
        | some items => acc ++ items
        | none => acc
      else acc) []

/-- The counting pass of the report generator, sum over results of the
truthiness of r at key present: raises KeyError when some record lacks the
present key. -/
def countPassed : List ResultDict → Except Unit Nat
  | [] => Except.ok 0
  | r :: rs =>
    match getItem r.present with
    | Except.error e => Except.error e
    | Except.ok p =>
      match countPassed rs with
      | Except.error e => Except.error e
      | Except.ok n => Except.ok ((if truthy p then 1 else 0) + n)

/-- The per-result lines appended by the report loop: subscript access to
present, id and title (KeyError when absent), a status line reading PASS
when present is truthy and FAIL otherwise, a description line through get
with default empty string, a remediation line only when present is falsy,
and a blank separator line. -/
def renderResult (r : ResultDict) : Except Unit (List String) :=
  match getItem r.present with
  | Except.error e => Except.error e
  | Except.ok pres =>
    match getItem r.id with
    | Except.error e => Except.error e
    | Except.ok idv =>
      match getItem r.title with
      | Except.error e => Except.error e
      | Except.ok tv =>
        Except.ok
          (["## " ++ pyStr idv ++ " - " ++ pyStr tv ++ "  ",
            "- Status: **" ++ (if truthy pres then "PASS" else "FAIL") ++ "**",
            "- Description: " ++ pyStr (r.description.getD (.vStr ""))] ++
           (if truthy pres then []
            else ["- Remediation: " ++ pyStr (r.remediation.getD (.vStr ""))]) ++
           [""])

/-- The report loop over all results, concatenating the per-result lines. -/
def renderAll : List ResultDict → Except Unit (List String)
  | [] => Except.ok []
  | r :: rs =>
    match renderResult r with
    | Except.error e => Except.error e
    | Except.ok l =>
      match renderAll rs with
      | Except.error e => Except.error e
      | Except.ok ls => Except.ok (l ++ ls)

/-- The full line list built by generate_markdown_report: title heading,
blank line, total count line, detected count line, blank line, then the
per-result sections. -/
def reportLines (results : List ResultDict) (title : String) :
    Except Unit (List String) :=
  match countPassed results with
  | Except.error e => Except.error e
  | Except.ok passed =>
    match renderAll results with
    | Except.error e => Except.error e
    | Except.ok body =>
      Except.ok
        (["# " ++ title, "",
          "- Total checks: " ++ toString results.length,
          "- Checks detected (heuristic pass): " ++ toString passed,
          ""] ++ body)

/-- generate_markdown_report from src/compliance_toolkit/utils.py: the line
list joined with newline separators. -/
def generate_markdown_report (results : List ResultDict)
    (title : String := "Compliance Report") : Except Unit String :=
  match reportLines results title with
  | Except.error e => Except.error e
  | Except.ok ls => Except.ok (String.intercalate "\n" ls)

/-- Mapping a function over a list commutes with the any test. -/
theorem any_map_eq {α β : Type} (f : α → β) (p : β → Bool) (xs : List α) :
    (xs.map f).any p = xs.any (fun x => p (f x)) := by
  induction xs with
  | nil => rfl
  | cons x xs ih => simp [List.any_cons, ih]

/-- Unfolding of the per-file scanner body as an existence statement. -/
theorem fileHits_eq_true (lkw : List String) (f : FileEntry) :
    fileHits lkw f = true ↔
      excludedExt f.name = false ∧
        ∃ data, f.content = some data ∧
          lkw.any (fun k => strContains (toLowerStr data) k) = true := by
  unfold fileHits
  cases hex : excludedExt f.name with
  | true => simp
  | false =>
    cases hc : f.content with
    | none => simp
    | some data => simp

/-- C1: the scanner returns true exactly when some walked file with a
non-excluded name and a successful read has lower-cased content containing
the lower-cased form of some keyword; read failures only skip their file. -/
theorem scan_repo_for_keywords_iff (files : List FileEntry) (keywords : List String) :
    scan_repo_for_keywords files keywords = true ↔
      ∃ f ∈ files, excludedExt f.name = false ∧
        ∃ data, f.content = some data ∧
          ∃ k ∈ keywords, strContains (toLowerStr data) (toLowerStr k) = true := by
  unfold scan_repo_for_keywords
  rw [List.any_eq_true]
  constructor
  · rintro ⟨f, hf, hhit⟩
    rw [fileHits_eq_true] at hhit
    obtain ⟨hex, data, hc, hany⟩ := hhit
    rw [any_map_eq, List.any_eq_true] at hany
    obtain ⟨k, hk, hks⟩ := hany
    exact ⟨f, hf, hex, data, hc, k, hk, hks⟩
  · rintro ⟨f, hf, hex, data, hc, k, hk, hks⟩
    refine ⟨f, hf, ?_⟩
    rw [fileHits_eq_true]
    refine ⟨hex, data, hc, ?_⟩
    rw [any_map_eq, List.any_eq_true]
    exact ⟨k, hk, hks⟩

/-- The per-file body never fires on a file whose name has an excluded
extension. -/
theorem fileHits_of_excluded (lkw : List String) (f : FileEntry)
    (h : excludedExt f.name = true) : fileHits lkw f = false := by
  unfold fileHits
  simp [h]

/-- The per-file body never fires when the keyword list is empty. -/
theorem fileHits_nil (f : FileEntry) : fileHits [] f = false := by
  unfold fileHits
  cases excludedExt f.name
  · cases f.content <;> simp
  · simp

/-- The scanner returns false on the empty keyword list. -/
theorem scan_keywords_nil (files : List FileEntry) :
    scan_repo_for_keywords files [] = false := by
  unfold scan_repo_for_keywords
  simp only [List.map_nil]
  rw [List.any_eq_false]
  intro f _
  simp [fileHits_nil f]

/-- The scanner returns false when every walked file has an excluded
extension, whatever the keyword list and file contents. -/
theorem scan_eq_false_of_excluded (files : List FileEntry) (kws : List String)
    (h : ∀ f ∈ files, excludedExt f.name = true) :
    scan_repo_for_keywords files kws = false := by
  unfold scan_repo_for_keywords
  rw [List.any_eq_false]
  intro f hf
  simp [fileHits_of_excluded _ f (h f hf)]

/-- C2: the auditor yields exactly one result per checklist item, in input
order; each result copies id, title, description and remediation from its
item (an absent key passing through as None), and present holds exactly when
the scanner reports a hit for the item keyword set. -/
theorem audit_repo_spec (files : List FileEntry) (cls : List ChecklistItem) :
    (audit_repo files cls).length = cls.length ∧
    ∀ (i : Nat) (item : ChecklistItem) (r : ResultDict),
      cls[i]? = some item → (audit_repo files cls)[i]? = some r →
      r.id = some (item.id.getD .vNone) ∧
      r.title = some (item.title.getD .vNone) ∧
      r.description = some (item.description.getD .vNone) ∧
      r.remediation = some (item.remediation.getD .vNone) ∧
      (r.present = some (.vBool true) ↔
        scan_repo_for_keywords files (item.keywords.getD []) = true) := by
  constructor
  · simp [audit_repo]
  · intro i item r h1 h2
    unfold audit_repo at h2
    rw [List.getElem?_map, h1] at h2
    rw [Option.map_some', Option.some.injEq] at h2
    subst h2
    refine ⟨rfl, rfl, rfl, rfl, ?_⟩
    cases h : scan_repo_for_keywords files (item.keywords.getD []) <;> simp

/-- Concrete instance discharging the hypotheses of audit_repo_spec. -/
theorem audit_repo_spec_witness :
    (({ id := some (.vStr "C1"), title := some (.vStr "Has license"),
        description := some .vNone, present := some (.vBool true),
        remediation := some (.vStr "Add LICENSE file") } : ResultDict).id =
      some (PyVal.vStr "C1")) ∧
    (({ id := some (.vStr "C1"), title := some (.vStr "Has license"),
        description := some .vNone, present := some (.vBool true),
        remediation := some (.vStr "Add LICENSE file") } : ResultDict).present =
        some (PyVal.vBool true) ↔
      scan_repo_for_keywords [⟨"README.md", some "This project is MIT License"⟩]
        (({ id := some (.vStr "C1"), title := some (.vStr "Has license"),
            keywords := some ["license"],
            remediation := some (.vStr "Add LICENSE file") } :
          ChecklistItem).keywords.getD []) = true) := by
  have h := (audit_repo_spec [⟨"README.md", some "This project is MIT License"⟩]
    [{ id := some (.vStr "C1"), title := some (.vStr "Has license"),
       keywords := some ["license"],
       remediation := some (.vStr "Add LICENSE file") }]).2 0
    { id := some (.vStr "C1"), title := some (.vStr "Has license"),
      keywords := some ["license"],
      remediation := some (.vStr "Add LICENSE file") }
    { id := some (.vStr "C1"), title := some (.vStr "Has license"),
      description := some .vNone, present := some (.vBool true),
      remediation := some (.vStr "Add LICENSE file") } rfl (by decide)
  exact ⟨h.1, h.2.2.2.2⟩

/-- C5: when every file under the root has an excluded binary extension (the
nonexistent and the empty root being the empty file list), every audit result
carries present false, whatever the file contents, and no error arises. -/
theorem audit_present_false_of_no_scannable (files : List FileEntry)
    (cls : List ChecklistItem)
    (h : ∀ f ∈ files, excludedExt f.name = true) :
    (audit_repo files cls).map ResultDict.present =
      cls.map (fun _ => some (PyVal.vBool false)) := by
  unfold audit_repo
  rw [List.map_map]
  apply List.map_congr_left
  intro item _
  simp [Function.comp, scan_eq_false_of_excluded files _ h]

/-- Concrete instance discharging the hypothesis of
audit_present_false_of_no_scannable: one binary file whose bytes do contain
the keyword, and the nonexistent root. -/
theorem audit_present_false_of_no_scannable_witness :
    ((audit_repo [⟨"logo.png", some "license"⟩]
        [{ id := some (.vStr "C1"), keywords := some ["license"] }]).map
      ResultDict.present =
      ([{ id := some (.vStr "C1"), keywords := some ["license"] }] :
        List ChecklistItem).map (fun _ => some (PyVal.vBool false))) ∧
    ((audit_repo []
        [{ id := some (.vStr "C1"), keywords := some ["license"] }]).map
      ResultDict.present =
      ([{ id := some (.vStr "C1"), keywords := some ["license"] }] :
        List ChecklistItem).map (fun _ => some (PyVal.vBool false))) := by
  constructor
  · exact audit_present_false_of_no_scannable
      [⟨"logo.png", some "license"⟩]
      [{ id := some (.vStr "C1"), keywords := some ["license"] }]
      (by intro f hf; simp at hf; subst hf; decide)
  · exact audit_present_false_of_no_scannable []
      [{ id := some (.vStr "C1"), keywords := some ["license"] }]
      (by intro f hf; simp at hf)

/-- C6: a checklist item whose keywords entry is the empty list, or is
absent (read back as the empty list), audits to present false at its
position, for every root. -/
theorem audit_present_false_of_empty_keywords (files : List FileEntry)
    (cls : List ChecklistItem) (i : Nat) (item : ChecklistItem)
    (h1 : cls[i]? = some item) (h2 : item.keywords.getD [] = []) :
    ((audit_repo files cls)[i]?).map ResultDict.present =
      some (some (PyVal.vBool false)) := by
  unfold audit_repo
  rw [List.getElem?_map, h1]
  simp [h2, scan_keywords_nil]

/-- Concrete instances discharging the hypotheses of
audit_present_false_of_empty_keywords: one item with empty keywords, one
item with the keywords key absent, over a root holding readable content. -/
theorem audit_present_false_of_empty_keywords_witness :
    (((audit_repo [⟨"notes.txt", some "license text"⟩]
        [{ id := some (.vStr "A"), keywords := some [] },
         { id := some (.vStr "B") }])[0]?).map ResultDict.present =
      some (some (PyVal.vBool false))) ∧
    (((audit_repo [⟨"notes.txt", some "license text"⟩]
        [{ id := some (.vStr "A"), keywords := some [] },
         { id := some (.vStr "B") }])[1]?).map ResultDict.present =
      some (some (PyVal.vBool false))) := by
  constructor
  · exact audit_present_false_of_empty_keywords
      [⟨"notes.txt", some "license text"⟩]
      [{ id := some (.vStr "A"), keywords := some [] },
       { id := some (.vStr "B") }] 0
      { id := some (.vStr "A"), keywords := some [] } rfl rfl
  · exact audit_present_false_of_empty_keywords
      [⟨"notes.txt", some "license text"⟩]
      [{ id := some (.vStr "A"), keywords := some [] },
       { id := some (.vStr "B") }] 1
      { id := some (.vStr "B") } rfl rfl

/-- The empty character list occurs inside every character list. -/
theorem containsChars_nil : ∀ l : List Char, containsChars [] l = true
  | [] => rfl
  | _ :: rest => by
    unfold containsChars
    rw [containsChars_nil rest]
    simp [isPrefixOfChars]

/-- Every string contains the empty string as a substring, as in Python. -/
theorem strContains_empty (data : String) : strContains data "" = true := by
  unfold strContains
  have h : ("" : String).data = [] := rfl
  rw [h]
  exact containsChars_nil data.data

/-- Lower-casing the empty string yields the empty string. -/
theorem toLowerStr_empty : toLowerStr "" = "" := rfl

/-- Whenever one walked file passes the extension filter, reads
successfully, and its lower-cased content contains some lower-cased keyword
of the list, the scanner reports a hit. -/
theorem scan_of_hit (files : List FileEntry) (keywords : List String)
    (f : FileEntry) (data k : String) (hf : f ∈ files)
    (hex : excludedExt f.name = false) (hc : f.content = some data)
    (hk : k ∈ keywords)
    (hs : strContains (toLowerStr data) (toLowerStr k) = true) :
    scan_repo_for_keywords files keywords = true := by
  unfold scan_repo_for_keywords
  rw [List.any_eq_true]
  refine ⟨f, hf, ?_⟩
  rw [fileHits_eq_true]
  refine ⟨hex, data, hc, ?_⟩
  rw [any_map_eq, List.any_eq_true]
  exact ⟨k, hk, hs⟩

/-- C10: with the empty string among the keywords, one readable file whose
name passes the extension filter forces the scanner to report a hit, even on
empty content; at the auditor level an item whose keyword list holds the
empty string is reported present at its position. -/
theorem empty_keyword_forces_present (files : List FileEntry) (f : FileEntry)
    (data : String) (hf : f ∈ files) (hex : excludedExt f.name = false)
    (hc : f.content = some data) :
    (∀ keywords : List String, "" ∈ keywords →
      scan_repo_for_keywords files keywords = true) ∧
    (∀ (cls : List ChecklistItem) (i : Nat) (item : ChecklistItem),
      cls[i]? = some item → "" ∈ item.keywords.getD [] →
      ((audit_repo files cls)[i]?).map ResultDict.present =
        some (some (PyVal.vBool true))) := by
  have hscan : ∀ keywords : List String, "" ∈ keywords →
      scan_repo_for_keywords files keywords = true := by
    intro keywords hk
    refine scan_of_hit files keywords f data "" hf hex hc hk ?_
    rw [toLowerStr_empty]
    exact strContains_empty (toLowerStr data)
  refine ⟨hscan, ?_⟩
  intro cls i item h1 h2
  unfold audit_repo
  rw [List.getElem?_map, h1]
  simp [hscan (item.keywords.getD []) h2]

/-- Concrete instance discharging the hypotheses of
empty_keyword_forces_present, over a single readable file with empty
content. -/
theorem empty_keyword_forces_present_witness :
    scan_repo_for_keywords [⟨"empty.txt", some ""⟩] [""] = true ∧
    ((audit_repo [⟨"empty.txt", some ""⟩]
        [{ id := some (.vStr "E"), keywords := some [""] }])[0]?).map
      ResultDict.present = some (some (PyVal.vBool true)) := by
  have h := empty_keyword_forces_present [⟨"empty.txt", some ""⟩]
    ⟨"empty.txt", some ""⟩ "" (by simp) (by decide) rfl
  exact ⟨h.1 [""] (by simp),
    h.2 [{ id := some (.vStr "E"), keywords := some [""] }] 0
      { id := some (.vStr "E"), keywords := some [""] } rfl (by simp)⟩

/-- The loader fold appends, in file order, the items of each file whose
name ends in .json and whose parse succeeded. -/
theorem load_foldl_eq (files : List ChecklistFile) (acc : List ChecklistItem) :
    files.foldl (fun acc f =>
      if strEndsWith f.name ".json" then
        match f.items with
        | some items => acc ++ items
        | none => acc
      else acc) acc =
    acc ++ (files.map (fun f =>
      if strEndsWith f.name ".json" then f.items.getD [] else [])).flatten := by
  induction files generalizing acc with
  | nil => simp
  | cons f fs ih =>
    rw [List.foldl_cons, ih]
    cases hj : strEndsWith f.name ".json" <;> cases hi : f.items <;>
      simp [hj, hi, List.append_assoc]

/-- Flattening a list of empty item lists yields the empty list. -/
theorem flatten_map_nil_eq (fs : List ChecklistFile) :
    (fs.map (fun _ => ([] : List ChecklistItem))).flatten = [] := by
  induction fs with
  | nil => rfl
  | cons f fs ih =>
    rw [List.map_cons, List.flatten_cons, ih]
    rfl

/-- C7: the loader returns the empty sequence on a missing directory; over a
listing it concatenates, in file order, exactly the item lists of the .json
files that parsed, so a file that fails to parse contributes nothing while
other files still load; a directory with no valid file yields the empty
sequence. -/
theorem load_checklists_spec :
    load_checklists none = [] ∧
    (∀ files : List ChecklistFile,
      load_checklists (some files) =
        (files.map (fun f =>
          if strEndsWith f.name ".json" then f.items.getD [] else [])).flatten) ∧
    (∀ files : List ChecklistFile,
      (∀ f ∈ files, strEndsWith f.name ".json" = false ∨ f.items = none) →
      load_checklists (some files) = []) := by
  have hmain : ∀ files : List ChecklistFile,
      load_checklists (some files) =
        (files.map (fun f =>
          if strEndsWith f.name ".json" then f.items.getD [] else [])).flatten := by
    intro files
    simp only [load_checklists]
    rw [load_foldl_eq]
    simp
  refine ⟨rfl, hmain, ?_⟩
  intro files h
  rw [hmain files]
  have hz : files.map (fun f =>
      if strEndsWith f.name ".json" then f.items.getD [] else []) =
      files.map (fun _ => ([] : List ChecklistItem)) := by
    apply List.map_congr_left
    intro f hf
    rcases h f hf with hj | hi
    · simp [hj]
    · simp [hi]
  rw [hz]
  exact flatten_map_nil_eq files

/-- Concrete instance discharging the hypothesis of load_checklists_spec:
one non-json file holding a parsed item and one json file whose parse
failed load nothing. -/
theorem load_checklists_spec_witness :
    load_checklists
      (some [⟨"a.txt", some [{ id := some (.vStr "X") }]⟩,
             ⟨"b.json", none⟩]) = [] := by
  exact load_checklists_spec.2.2
    [⟨"a.txt", some [{ id := some (.vStr "X") }]⟩, ⟨"b.json", none⟩]
    (by
      intro f hf
      simp only [List.mem_cons, List.mem_singleton, List.not_mem_nil, or_false] at hf
      rcases hf with h | h
      · subst h; left; decide
      · subst h; right; rfl)

/-- Successful subscript access means the key was bound to that value. -/
theorem getItem_ok (o : Option PyVal) (v : PyVal)
    (h : getItem o = Except.ok v) : o = some v := by
  cases o with
  | none => simp [getItem] at h
  | some w =>
    simp [getItem] at h
    rw [h]

/-- The counting pass, when it succeeds, returns the number of results whose
present value is truthy. -/
theorem countPassed_eq (results : List ResultDict) :
    ∀ n, countPassed results = Except.ok n →
      n = (results.filter (fun r => truthy (r.present.getD .vNone))).length := by
  induction results with
  | nil =>
    intro n h
    simp only [countPassed, Except.ok.injEq] at h
    subst h
    rfl
  | cons r rs ih =>
    intro n h
    simp only [countPassed] at h
    cases hg : getItem r.present with
    | error e => rw [hg] at h; cases h
    | ok p =>
      rw [hg] at h
      cases hrec : countPassed rs with
      | error e => rw [hrec] at h; cases h
      | ok m =>
        rw [hrec] at h
        simp only [Except.ok.injEq] at h
        subst h
        have hp := getItem_ok r.present p hg
        have hq : truthy (r.present.getD .vNone) = truthy p := by rw [hp]; rfl
        rw [List.filter_cons]
        cases htp : truthy p <;>
          simp [hq, htp, ih m hrec, Nat.add_comm]

/-- The counting pass succeeds whenever every result has a present key. -/
theorem countPassed_isOk (results : List ResultDict)
    (h : ∀ r ∈ results, r.present.isSome = true) :
    ∃ n, countPassed results = Except.ok n := by
  induction results with
  | nil => exact ⟨0, rfl⟩
  | cons r rs ih =>
    obtain ⟨n, hn⟩ := ih (fun g hg => h g (List.mem_cons_of_mem r hg))
    obtain ⟨p, hp⟩ := Option.isSome_iff_exists.mp (h r (List.mem_cons_self r rs))
    refine ⟨(if truthy p then 1 else 0) + n, ?_⟩
    simp [countPassed, hp, getItem, hn]

/-- Explicit value of the per-result section once the present, id and title
keys are known to be bound. -/
theorem renderResult_eq (r : ResultDict) (pres idv tv : PyVal)
    (hp : r.present = some pres) (hid : r.id = some idv)
    (ht : r.title = some tv) :
    renderResult r = Except.ok
      (["## " ++ pyStr idv ++ " - " ++ pyStr tv ++ "  ",
        "- Status: **" ++ (if truthy pres then "PASS" else "FAIL") ++ "**",
        "- Description: " ++ pyStr (r.description.getD (.vStr ""))] ++
       (if truthy pres then []
        else ["- Remediation: " ++ pyStr (r.remediation.getD (.vStr ""))]) ++
       [""]) := by
  unfold renderResult
  rw [hp, hid, ht]
  simp [getItem]

/-- The per-result section renders whenever the three required keys are
bound. -/
theorem renderResult_isOk (r : ResultDict) (h1 : r.id.isSome = true)
    (h2 : r.title.isSome = true) (h3 : r.present.isSome = true) :
    ∃ l, renderResult r = Except.ok l := by
  obtain ⟨idv, hid⟩ := Option.isSome_iff_exists.mp h1
  obtain ⟨tv, ht⟩ := Option.isSome_iff_exists.mp h2
  obtain ⟨pres, hp⟩ := Option.isSome_iff_exists.mp h3
  exact ⟨_, renderResult_eq r pres idv tv hp hid ht⟩

/-- The report loop renders whenever every result has its three required
keys bound. -/
theorem renderAll_isOk (results : List ResultDict)
    (h : ∀ r ∈ results,
      r.id.isSome = true ∧ r.title.isSome = true ∧ r.present.isSome = true) :
    ∃ b, renderAll results = Except.ok b := by
  induction results with
  | nil => exact ⟨[], rfl⟩
  | cons r rs ih =>
    obtain ⟨b, hb⟩ := ih (fun g hg => h g (List.mem_cons_of_mem r hg))
    obtain ⟨h1, h2, h3⟩ := h r (List.mem_cons_self r rs)
    obtain ⟨l, hl⟩ := renderResult_isOk r h1 h2 h3
    exact ⟨l ++ b, by simp [renderAll, hl, hb]⟩

/-- A successful report loop yields the concatenation, in input order, of
the per-result sections. -/
theorem renderAll_flatten (results : List ResultDict) :
    ∀ b, renderAll results = Except.ok b →
      b = ((results.map renderResult).map
        (fun e => (Except.toOption e).getD [])).flatten := by
  induction results with
  | nil =>
    intro b h
    simp only [renderAll, Except.ok.injEq] at h
    subst h
    rfl
  | cons r rs ih =>
    intro b h
    simp only [renderAll] at h
    cases h1 : renderResult r with
    | error e => rw [h1] at h; cases h
    | ok l =>
      rw [h1] at h
      cases h2 : renderAll rs with
      | error e => rw [h2] at h; cases h
      | ok ls2 =>
        rw [h2] at h
        simp only [Except.ok.injEq] at h
        subst h
        rw [List.map_cons, List.map_cons, List.flatten_cons, h1,
          ih ls2 h2]
        rfl

/-- A successful run of the full line builder decomposes into a successful
count, a successful body, and the five header lines followed by the body. -/
theorem reportLines_ok_elim (results : List ResultDict) (title : String)
    (ls : List String) (h : reportLines results title = Except.ok ls) :
    ∃ p b, countPassed results = Except.ok p ∧
      renderAll results = Except.ok b ∧
      ls = ["# " ++ title, "",
            "- Total checks: " ++ toString results.length,
            "- Checks detected (heuristic pass): " ++ toString p,
            ""] ++ b := by
  unfold reportLines at h
  cases hc : countPassed results with
  | error e => rw [hc] at h; cases h
  | ok p =>
    rw [hc] at h
    cases hb : renderAll results with
    | error e => rw [hb] at h; cases h
    | ok b =>
      rw [hb] at h
      simp only [Except.ok.injEq] at h
      exact ⟨p, b, rfl, rfl, h.symm⟩

/-- C4: in a rendered report the detected count equals the number of results
whose present value is truthy, never exceeds the total, and the two summary
lines stating the total and the detected count appear in the output. -/
theorem report_count_invariant (results : List ResultDict) (title : String)
    (ls : List String) (passed : Nat)
    (h : reportLines results title = Except.ok ls)
    (hp : countPassed results = Except.ok passed) :
    passed = (results.filter (fun r => truthy (r.present.getD .vNone))).length ∧
    passed ≤ results.length ∧
    ("- Total checks: " ++ toString results.length) ∈ ls ∧
    ("- Checks detected (heuristic pass): " ++ toString passed) ∈ ls := by
  obtain ⟨p, b, hc, hb, hls⟩ := reportLines_ok_elim results title ls h
  rw [hp] at hc
  have hpe : passed = p := by
    cases hc
    rfl
  subst hpe
  refine ⟨countPassed_eq results passed hp, ?_, ?_, ?_⟩
  · rw [countPassed_eq results passed hp]
    exact List.length_filter_le _ results
  · rw [hls]; simp
  · rw [hls]; simp

/-- A sample failing audit result used to instantiate the report theorems. -/
def sampleFailResult : ResultDict :=
  { id := some (.vStr "C2"), title := some (.vStr "Has policy"),
    description := some .vNone, present := some (.vBool false),
    remediation := some (.vStr "Add policy") }

/-- The line list the report builder produces on the sample failing
result. -/
def sampleReportList : List String :=
  ["# Compliance Report", "", "- Total checks: 1",
   "- Checks detected (heuristic pass): 0", "", "## C2 - Has policy  ",
   "- Status: **FAIL**", "- Description: None",
   "- Remediation: Add policy", ""]

/-- Concrete instance discharging the hypotheses of report_count_invariant
over one failing result. -/
theorem report_count_invariant_witness :
    (0 = (([sampleFailResult]).filter
      (fun r => truthy (r.present.getD .vNone))).length) ∧
    0 ≤ [sampleFailResult].length ∧
    ("- Total checks: " ++ toString [sampleFailResult].length) ∈
      sampleReportList ∧
    ("- Checks detected (heuristic pass): " ++ toString 0) ∈
      sampleReportList := by
  exact report_count_invariant [sampleFailResult] "Compliance Report"
    sampleReportList 0 rfl rfl

/-- C8: in a successful run the output is the five header lines followed by
the per-result sections concatenated in input order, and each section is a
header line joining id and title, a status line reading PASS exactly when
present is truthy, a description line, a remediation line exactly when
present is falsy, and a blank line. -/
theorem report_sections_spec (results : List ResultDict) (title : String)
    (ls b : List String)
    (h : reportLines results title = Except.ok ls)
    (hb : renderAll results = Except.ok b) :
    ls = ["# " ++ title, "",
          "- Total checks: " ++ toString results.length,
          "- Checks detected (heuristic pass): " ++
            toString ((results.filter
              (fun r => truthy (r.present.getD .vNone))).length),
          ""] ++ b ∧
    b = ((results.map renderResult).map
      (fun e => (Except.toOption e).getD [])).flatten ∧
    ∀ (r : ResultDict) (pres idv tv : PyVal), r ∈ results →
      r.present = some pres → r.id = some idv → r.title = some tv →
      renderResult r = Except.ok
        (["## " ++ pyStr idv ++ " - " ++ pyStr tv ++ "  ",
          "- Status: **" ++ (if truthy pres then "PASS" else "FAIL") ++ "**",
          "- Description: " ++ pyStr (r.description.getD (.vStr ""))] ++
         (if truthy pres then []
          else ["- Remediation: " ++ pyStr (r.remediation.getD (.vStr ""))]) ++
         [""]) := by
  obtain ⟨p, b2, hc, hb2, hls⟩ := reportLines_ok_elim results title ls h
  rw [hb] at hb2
  injection hb2 with hbb
  subst hbb
  refine ⟨?_, renderAll_flatten results b hb, ?_⟩
  · rw [hls, countPassed_eq results p hc]
  · intro r pres idv tv _ hp hid ht
    exact renderResult_eq r pres idv tv hp hid ht

/-- A sample passing audit result used to instantiate the report theorems. -/
def samplePassResult : ResultDict :=
  { id := some (.vStr "C1"), title := some (.vStr "Has license"),
    description := some (.vStr "desc"), present := some (.vBool true),
    remediation := some (.vStr "fix") }

/-- A two-result sequence, one pass then one fail. -/
def sampleTwoResults : List ResultDict :=
  [samplePassResult, sampleFailResult]

/-- The section lines the report loop produces on the two-result sample. -/
def sampleBody : List String :=
  ["## C1 - Has license  ", "- Status: **PASS**", "- Description: desc", "",
   "## C2 - Has policy  ", "- Status: **FAIL**", "- Description: None",
   "- Remediation: Add policy", ""]

/-- The full line list the report builder produces on the two-result
sample. -/
def sampleTwoReport : List String :=
  ["# Compliance Report", "", "- Total checks: 2",
   "- Checks detected (heuristic pass): 1", ""] ++ sampleBody

/-- Concrete instance discharging the hypotheses of report_sections_spec
over the two-result sample. -/
theorem report_sections_spec_witness :
    sampleTwoReport =
      ["# Compliance Report", "",
       "- Total checks: " ++ toString sampleTwoResults.length,
       "- Checks detected (heuristic pass): " ++
         toString ((sampleTwoResults.filter
           (fun r => truthy (r.present.getD .vNone))).length),
       ""] ++ sampleBody ∧
    sampleBody = ((sampleTwoResults.map renderResult).map
      (fun e => (Except.toOption e).getD [])).flatten ∧
    renderResult sampleFailResult = Except.ok
      ["## C2 - Has policy  ", "- Status: **FAIL**", "- Description: None",
       "- Remediation: Add policy", ""] := by
  have h := report_sections_spec sampleTwoResults "Compliance Report"
    sampleTwoReport sampleBody rfl rfl
  refine ⟨h.1, h.2.1, ?_⟩
  have h3 := h.2.2 sampleFailResult (.vBool false) (.vStr "C2")
    (.vStr "Has policy")
    (List.mem_cons_of_mem _ (List.mem_cons_self _ _)) rfl rfl rfl
  exact h3

/-- A result record lacking the id key, on which the renderer raises. -/
def sampleNoIdResult : ResultDict :=
  { title := some (.vStr "T"), present := some (.vBool true) }

/-- Counterexample to C3 as stated: a result whose id key is absent makes
generate_markdown_report raise KeyError instead of rendering an empty
string. -/
theorem report_raises_on_absent_id :
    generate_markdown_report [sampleNoIdResult] "Compliance Report" =
      Except.error () := rfl

/-- C3 amended: the renderer never raises provided every result has its id,
title and present keys bound; a result whose description and remediation
keys are absent renders them as empty strings after their labels. -/
theorem report_ok_of_required_keys (results : List ResultDict) (title : String)
    (h : ∀ r ∈ results,
      r.id.isSome = true ∧ r.title.isSome = true ∧ r.present.isSome = true) :
    (generate_markdown_report results title).toOption.isSome = true ∧
    ∀ (r : ResultDict) (pres idv tv : PyVal),
      r.present = some pres → r.id = some idv → r.title = some tv →
      truthy pres = false → r.description = none → r.remediation = none →
      renderResult r = Except.ok
        ["## " ++ pyStr idv ++ " - " ++ pyStr tv ++ "  ",
         "- Status: **FAIL**", "- Description: ", "- Remediation: ", ""] := by
  constructor
  · obtain ⟨n, hn⟩ := countPassed_isOk results
      (fun r hr => (h r hr).2.2)
    obtain ⟨b, hb⟩ := renderAll_isOk results h
    unfold generate_markdown_report reportLines
    rw [hn, hb]
    rfl
  · intro r pres idv tv hp hid ht hf hd hr
    rw [renderResult_eq r pres idv tv hp hid ht, hf, hd, hr]
    rfl

/-- Concrete instance discharging the hypotheses of
report_ok_of_required_keys: a result with null title, falsy present, and
absent description and remediation keys. -/
theorem report_ok_of_required_keys_witness :
    (generate_markdown_report
      [{ id := some (.vStr "A"), title := some .vNone,
         present := some (.vBool false) }]
      "Compliance Report").toOption.isSome = true ∧
    renderResult
      { id := some (.vStr "A"), title := some .vNone,
        present := some (.vBool false) } = Except.ok
      ["## A - None  ", "- Status: **FAIL**", "- Description: ",
       "- Remediation: ", ""] := by
  have h := report_ok_of_required_keys
    [{ id := some (.vStr "A"), title := some .vNone,
       present := some (.vBool false) }]
    "Compliance Report"
    (by
      intro r hr
      simp only [List.mem_singleton] at hr
      subst hr
      exact ⟨rfl, rfl, rfl⟩)
  refine ⟨h.1, ?_⟩
  exact h.2
    { id := some (.vStr "A"), title := some .vNone,
      present := some (.vBool false) }
    (.vBool false) (.vStr "A") .vNone rfl rfl rfl rfl rfl rfl

/-- C9: the renderer is a pure function of the result sequence and title, so
two calls with the same arguments yield byte-identical output; the embedding
is pure, matching the source which only reads its arguments. -/
theorem generate_markdown_report_deterministic (results : List ResultDict)
    (title : String) :
    generate_markdown_report results title =
      generate_markdown_report results title := rfl

end ComplianceToolkit
